import Mathlib

/-!
Verification development for the ish-server transaction API
(src/index.ts and the drizzle schema in src/db/schema.ts).

The handlers are embedded shallowly:

* The persisted table is a list of `Transaction` records.  Timestamp
  columns are integer columns in mode "timestamp"; drizzle stores a JS
  Date as whole seconds since the epoch (Math.floor(getTime() / 1000)),
  so the record fields `occurredAt`, `createdAt`, `updatedAt` hold epoch
  seconds, and `msToSec` is the driver conversion applied to every bound
  and every written Date.
* Authentication is resolved before each handler body runs; handlers
  take the resolved user id as a parameter (the Unauthorized branch is
  outside the modelled logic).
* JSON body fields are modelled by `JSVal` (undefined, null, string, or
  a decimal number m / 10 ^ e).  JS primitive coercions are embedded for
  this fragment: `jsNumber` is the Number() coercion, `numToString` is
  the number-to-string conversion (exact for the plain decimal literals
  exercised here; exponent, hex and Infinity forms are outside the
  fragment and map to NaN), `jsTrim`, `jsToUpper`, `jsSplitDash` are the
  string methods used by the handlers, rebuilt over character lists so
  that they reduce in the kernel.
* Division operators follow the JS spec: Int.tdiv is truncation toward
  zero (ToIntegerOrInfinity, TimeClip), Int.fdiv is Math.floor, and
  Int.fdiv / Int.emod with positive divisor are the floor/modulo pair
  used by MakeDay.
-/

/-- Persisted transaction row, after the drizzle driver conversions:
text columns are strings, nullable text columns are Option String, and
the three integer timestamp columns hold epoch seconds. -/
structure Transaction where
  id : String
  userId : String
  title : String
  amount : String
  currency : String
  type : String
  category : Option String
  note : Option String
  occurredAt : Int
  createdAt : Int
  updatedAt : Int
deriving DecidableEq

/-- The transaction table contents. -/
abbrev Store := List Transaction

/-- JSON / JS values that can appear in a request body field.  Numbers
are restricted to the exact decimal fragment m / 10 ^ e. -/
inductive JSVal where
  | undefined
  | null
  | str (s : String)
  | num (m : Int) (e : Nat)
deriving DecidableEq

/-- A JS number: NaN or an exact decimal m / 10 ^ e. -/
inductive JSNum where
  | nan
  | dec (m : Int) (e : Nat)
deriving DecidableEq

/-- Drop leading whitespace characters. -/
def trimLeftChars : List Char → List Char
  | [] => []
  | c :: cs => if c.isWhitespace then trimLeftChars cs else c :: cs

/-- Embedding of String.prototype.trim. -/
def jsTrim (s : String) : String :=
  ⟨trimLeftChars (trimLeftChars s.data.reverse).reverse⟩

/-- Embedding of String.prototype.toUpperCase (ASCII fragment). -/
def jsToUpper (s : String) : String := ⟨s.data.map Char.toUpper⟩

/-- Split a character list at each dash. -/
def splitDashChars : List Char → List (List Char)
  | [] => [[]]
  | c :: cs =>
    if c = '-' then [] :: splitDashChars cs
    else
      match splitDashChars cs with
      | [] => [[c]]
      | p :: ps => (c :: p) :: ps

/-- Embedding of String.prototype.split with separator "-". -/
def jsSplitDash (s : String) : List String := (splitDashChars s.data).map String.mk

/-- Value of a digit list, most significant first. -/
def digitsToNat (l : List Char) : Nat :=
  l.foldl (fun a c => a * 10 + (c.toNat - 48)) 0

/-- Check that every character is a decimal digit. -/
def allDigits (l : List Char) : Bool := l.all Char.isDigit

/-- Parse an unsigned decimal literal (digits, optionally one dot).
Anything outside this fragment is NaN. -/
def parseDecDigits (l : List Char) : JSNum :=
  let ip := l.takeWhile (fun c => c ≠ '.')
  match l.drop ip.length with
  | [] =>
    if ip.isEmpty then .nan
    else if allDigits ip then .dec (digitsToNat ip) 0 else .nan
  | _ :: fp =>
    if fp.contains '.' then .nan
    else if ip.isEmpty && fp.isEmpty then .nan
    else if allDigits ip && allDigits fp then
      .dec ((digitsToNat ip) * 10 ^ fp.length + digitsToNat fp) fp.length
    else .nan

/-- Negate a JS number. -/
def negNum : JSNum → JSNum
  | .nan => .nan
  | .dec m e => .dec (-m) e

/-- Parse an optionally signed decimal literal. -/
def parseSignedDec : List Char → JSNum
  | '-' :: rest => negNum (parseDecDigits rest)
  | '+' :: rest => parseDecDigits rest
  | l => parseDecDigits l

/-- Embedding of Number(string): trim, empty string is 0, otherwise a
signed decimal literal, else NaN. -/
def jsNumberOfString (s : String) : JSNum :=
  let t := jsTrim s
  if t = "" then .dec 0 0 else parseSignedDec t.data

/-- Embedding of the Number() coercion on the modelled value domain. -/
def jsNumber : JSVal → JSNum
  | .undefined => .nan
  | .null => .dec 0 0
  | .str s => jsNumberOfString s
  | .num m e => .dec m e

/-- Remove trailing zero fraction digits: the value n / 10 ^ e in
lowest decimal terms. -/
def stripZerosNat : Nat → Nat → Nat × Nat
  | n, 0 => (n, 0)
  | n, e + 1 => if n % 10 = 0 then stripZerosNat (n / 10) e else (n, e + 1)

/-- A string of k zero characters. -/
def padZeros (k : Nat) : String := ⟨List.replicate k '0'⟩

/-- Embedding of Number.prototype.toString for the decimal fragment:
NaN prints "NaN", a decimal prints its shortest plain decimal form
(which is what JS prints for the short decimals arising here). -/
def numToString : JSNum → String
  | .nan => "NaN"
  | .dec m e =>
    let p := stripZerosNat m.natAbs e
    let sign : String := if m < 0 && p.1 ≠ 0 then "-" else ""
    if p.2 = 0 then sign ++ toString p.1
    else
      let fs := toString (p.1 % 10 ^ p.2)
      sign ++ toString (p.1 / 10 ^ p.2) ++ "." ++ padZeros (p.2 - fs.length) ++ fs

/-- Embedding of the ?? operator: undefined and null fall back. -/
def coalesce (v d : JSVal) : JSVal :=
  match v with
  | .undefined => d
  | .null => d
  | x => x

/-- Embedding of toString() on a defined value (only reached after a
?? default or an optional-chaining guard in the handlers). -/
def jsToString : JSVal → String
  | .undefined => "undefined"
  | .null => "null"
  | .str s => s
  | .num m e => numToString (.dec m e)

/-- Embedding of body?.field?.toString().trim(): none models undefined
(field absent or null under optional chaining). -/
def optTrimStr : JSVal → Option String
  | .undefined => none
  | .null => none
  | .str s => some (jsTrim s)
  | .num m e => some (jsTrim (numToString (.dec m e)))

/-- Embedding of body?.field?.toString().trim() || null, the category
and note normalisation of the update handler: absent, null, empty and
whitespace-only values collapse to null. -/
def normOpt (v : JSVal) : Option String :=
  match optTrimStr v with
  | none => none
  | some s => if s = "" then none else some s

/-- JS truthiness on the modelled value domain. -/
def jsTruthy : JSVal → Bool
  | .undefined => false
  | .null => false
  | .str s => s ≠ ""
  | .num m _ => m ≠ 0

/-- Check for the undefined value. -/
def isUndefined : JSVal → Bool
  | .undefined => true
  | _ => false

/-- Truthiness of a JS number: NaN and 0 are falsy. -/
def truthyNum : JSNum → Bool
  | .nan => false
  | .dec m _ => m ≠ 0

/-- Embedding of Number.isNaN. -/
def isNaNNum : JSNum → Bool
  | .nan => true
  | _ => false

/-- Mantissa of a decimal JS number (0 for NaN; NaN never reaches the
arithmetic because the handler guards reject it first). -/
def decM : JSNum → Int
  | .nan => 0
  | .dec m _ => m

/-- Scale exponent of a decimal JS number. -/
def decE : JSNum → Nat
  | .nan => 0
  | .dec _ e => e

/-- Embedding of ToIntegerOrInfinity on a finite number: truncation
toward zero. -/
def jsTruncNum : JSNum → Int
  | .nan => 0
  | .dec m e => Int.tdiv m ((10 : Int) ^ e)

/-- Subtract one from a JS number (the month - 1 in the list handler),
performed before truncation as in the source. -/
def decSub1 : JSNum → JSNum
  | .nan => .nan
  | .dec m e => .dec (m - 10 ^ e) e

/-- Days from the epoch to civil date (y, m, d) with m in 1..12, the
standard proleptic Gregorian day-number algorithm used to embed the
ECMAScript MakeDay date arithmetic. -/
def daysFromCivil (y m d : Int) : Int :=
  let yAdj := if m ≤ 2 then y - 1 else y
  let era := Int.fdiv yAdj 400
  let yoe := yAdj - era * 400
  let doy := Int.tdiv (153 * (if m > 2 then m - 3 else m + 9) + 2) 5 + d - 1
  let doe := yoe * 365 + Int.tdiv yoe 4 - Int.tdiv yoe 100 + doy
  era * 146097 + doe - 719468

/-- Embedding of ECMAScript MakeDay(y, m, d): month overflow rolls the
year via floor division and modulo, day overflow rolls by day count. -/
def makeDay (y m d : Int) : Int :=
  daysFromCivil (y + Int.fdiv m 12) (Int.emod m 12 + 1) 1 + (d - 1)

/-- Embedding of MakeFullYear: integer years 0..99 mean 1900 + y. -/
def makeFullYear (y : Int) : Int :=
  if 0 ≤ y ∧ y ≤ 99 then 1900 + y else y

/-- Embedding of Date.UTC(y, m, d, 0, 0, 0, 0) in milliseconds, for
arguments in the representable range (TimeClip saturation to NaN for
times beyond 8.64e15 ms is outside the modelled range). -/
def dateUTC (y m d : JSNum) : Int :=
  makeDay (makeFullYear (jsTruncNum y)) (jsTruncNum m) (jsTruncNum d) * 86400000

/-- Driver conversion of a millisecond Date to the stored integer
column: Math.floor of the epoch seconds. -/
def msToSec (ms : Int) : Int := Int.fdiv ms 1000

/-- Row predicate of the update and delete WHERE clause:
and(eq(transaction.id, id), eq(transaction.userId, sessionUserId)). -/
def matchesRow (uid id : String) (t : Transaction) : Bool :=
  t.id == id && t.userId == uid

/-- Insert a row into a list kept in descending occurredAt order. -/
def insertDesc (t : Transaction) : List Transaction → List Transaction
  | [] => [t]
  | u :: us => if t.occurredAt ≤ u.occurredAt then u :: insertDesc t us else t :: u :: us

/-- Sort rows by occurredAt descending (orderBy desc(occurredAt)). -/
def sortByOccurredAtDesc (l : List Transaction) : List Transaction :=
  l.foldr insertDesc []

/-- Filter predicate when a date range is present: the userId equality
plus gte and lt on occurredAt, with bounds already converted to stored
epoch seconds. -/
def dateRangePred (uid : String) (lo hi : Int) (t : Transaction) : Bool :=
  t.userId == uid && (decide (lo ≤ t.occurredAt) && decide (t.occurredAt < hi))

/-- Filter predicate of the list query. -/
def queryPred (uid : String) (range : Option (Int × Int)) : Transaction → Bool :=
  match range with
  | some (lo, hi) => dateRangePred uid lo hi
  | none => fun t => t.userId == uid

/-- The select ... where ... orderBy desc(occurredAt) limit 50 query of
the list handler. -/
def runQuery (store : Store) (uid : String) (range : Option (Int × Int)) :
    List Transaction :=
  (sortByOccurredAtDesc (store.filter (queryPred uid range))).take 50

/-- Response of the list handler. -/
inductive ListResp where
  | badRequest (msg : String)
  | ok (transactions : List Transaction)
deriving DecidableEq

/-- Element of the destructured parts array; a missing position is
undefined, which the handler guard treats exactly like NaN (both are
falsy and both never reach the date arithmetic), so it is folded into
nan here. -/
def jsAt (l : List JSNum) (i : Nat) : JSNum := (l[i]?).getD .nan

/-- Number(tzOffsetParam): an absent query parameter is undefined and
coerces to NaN. -/
def jsNumOfParam : Option String → JSNum
  | some s => jsNumberOfString s
  | none => .nan

/-- Embedding of app.get("/transactions"): optional date and tzOffset
query parameters, the guard on year, month, day and tzOffset, the
Date.UTC(year, month - 1, day) + tzOffset * 60000 lower bound, the
plus-24-hours upper bound, and the userId / gte / lt filtered query
ordered by occurredAt descending and limited to 50 rows. -/
def getTransactions (store : Store) (uid : String)
    (dateParam tzOffsetParam : Option String) : ListResp :=
  match dateParam with
  | none => .ok (runQuery store uid none)
  | some ds =>
    if ds = "" then .ok (runQuery store uid none)
    else
      let parts := (jsSplitDash ds).map jsNumberOfString
      let year := jsAt parts 0
      let month := jsAt parts 1
      let day := jsAt parts 2
      let tzOffset := jsNumOfParam tzOffsetParam
      if !truthyNum year || !truthyNum month || !truthyNum day ||
          isNaNNum year || isNaNNum month || isNaNNum day || isNaNNum tzOffset then
        .badRequest "Invalid date or tzOffset"
      else
        let pw : Int := (10 : Int) ^ decE tzOffset
        let utcNum := dateUTC year (decSub1 month) day * pw + decM tzOffset * 60000
        let dayStartMs := Int.tdiv utcNum pw
        let dayEndMs := Int.tdiv (utcNum + 86400000 * pw) pw
        .ok (runQuery store uid (some (msToSec dayStartMs, msToSec dayEndMs)))

/-- Response of the delete handler. -/
inductive DelResp where
  | badRequest (msg : String)
  | notFound
  | ok
deriving DecidableEq

/-- Embedding of app.delete("/transactions/:id"): delete every row
matching id and the caller userId; 404 when none matched. -/
def deleteTransaction (store : Store) (uid id : String) : DelResp × Store :=
  if id = "" then (.badRequest "Missing id", store)
  else
    match store.filter (matchesRow uid id) with
    | [] => (.notFound, store)
    | _ :: _ => (.ok, store.filter (fun t => !matchesRow uid id t))

/-- Request body of the update handler.  The occurredAt field models
body?.occurredAt ? new Date(body.occurredAt) : null directly as the
parsed result: some ms for a truthy value denoting that instant, none
for an absent or falsy value. -/
structure UpdateBody where
  title : JSVal
  amount : JSVal
  currency : JSVal
  type : JSVal
  category : JSVal
  note : JSVal
  occurredAt : Option Int
deriving DecidableEq

/-- Truthiness of an optional-chained trimmed string: undefined and the
empty string are falsy. -/
def strOk : Option String → Bool
  | none => false
  | some s => s ≠ ""

/-- Embedding of the update payload guard: !payload.title,
payload.amount === undefined, !payload.currency, !payload.type. -/
def validPayload (b : UpdateBody) : Bool :=
  strOk (optTrimStr b.title) &&
  !isUndefined b.amount &&
  strOk ((optTrimStr b.currency).map jsToUpper) &&
  jsTruthy b.type

/-- The drizzle set clause of the update handler applied to one row:
title trimmed, amount coerced through Number and back to a string,
currency trimmed and upper-cased, type stored as given, category and
note normalised, occurredAt overwritten only when supplied (undefined
skips the column), and no other column touched.  The getD defaults are
unreachable after validation. -/
def applyBody (b : UpdateBody) (t : Transaction) : Transaction :=
  { t with
    title := (optTrimStr b.title).getD "",
    amount := numToString (jsNumber b.amount),
    currency := ((optTrimStr b.currency).map jsToUpper).getD "",
    type := jsToString b.type,
    category := normOpt b.category,
    note := normOpt b.note,
    occurredAt :=
      match b.occurredAt with
      | some ms => msToSec ms
      | none => t.occurredAt }

/-- Response of the update handler. -/
inductive PutResp where
  | badRequest (msg : String)
  | notFound
  | ok (t : Transaction)
deriving DecidableEq

/-- Embedding of app.put("/transactions/:id"): id guard, payload guard,
then an UPDATE of every row matching id and the caller userId with
returning; 404 when none matched. -/
def putTransaction (store : Store) (uid id : String) (body : UpdateBody) :
    PutResp × Store :=
  if id = "" then (.badRequest "Missing id", store)
  else if !validPayload body then (.badRequest "Invalid payload", store)
  else
    let newStore := store.map fun t => if matchesRow uid id t then applyBody body t else t
    match newStore.filter (matchesRow uid id) with
    | [] => (.notFound, store)
    | t :: _ => (.ok t, newStore)

/-- The enumerated transaction type of the extraction schema:
income or expense. -/
inductive TxKind where
  | income
  | expense
deriving DecidableEq

/-- Stored text of the enumerated type. -/
def TxKind.toText : TxKind → String
  | .income => "income"
  | .expense => "expense"

/-- A schema-conforming object produced by generateObject: the zod
schema guarantees a non-empty title, a finite number amount (held as
the exact decimal amountM / 10 ^ amountE), a 3-letter currency
(defaulted to USD by the schema), the enumerated type, a category
string, an optional note and an optional occurredAt (modelled as the
instant the date string denotes, none when omitted or falsy). -/
structure ParsedTx where
  title : String
  amountM : Int
  amountE : Nat
  currency : String
  type : TxKind
  category : String
  note : Option String
  occurredAt : Option Int
deriving DecidableEq

/-- Response of the create-from-text handler. -/
inductive AiResp where
  | badRequest (msg : String)
  | upstreamFailure
  | created (parsed : ParsedTx) (t : Transaction)
deriving DecidableEq

/-- Outcome of the create-from-text handler: the response, whether the
external generateObject call was reached, and the resulting store. -/
structure AiOutcome where
  resp : AiResp
  calledExtraction : Bool
  store : Store
deriving DecidableEq

/-- Embedding of app.post("/ai"): text and currency extraction with ??
defaults, the Missing text guard, the single un-retried generateObject
call (a throw aborts the request before any insert), and the insert of
the extracted transaction with a fresh id; the two timestamp column
defaults are evaluated at the same insert, modelled by one nowMs. -/
def postAi (store : Store) (uid : String) (bodyText bodyCurrency : JSVal)
    (extract : Option ParsedTx) (newId : String) (nowMs : Int) : AiOutcome :=
  let text := jsTrim (jsToString (coalesce bodyText (.str "")))
  let _preferredCurrency := jsToUpper (jsTrim (jsToString (coalesce bodyCurrency (.str "USD"))))
  if text = "" then ⟨.badRequest "Missing text", false, store⟩
  else
    match extract with
    | none => ⟨.upstreamFailure, true, store⟩
    | some p =>
      let occurredAtMs := p.occurredAt.getD nowMs
      let t : Transaction :=
        { id := newId, userId := uid, title := p.title,
          amount := numToString (.dec p.amountM p.amountE),
          currency := p.currency,
          type := p.type.toText,
          category := some p.category,
          note := p.note,
          occurredAt := msToSec occurredAtMs,
          createdAt := msToSec nowMs,
          updatedAt := msToSec nowMs }
      ⟨.created p t, true, store ++ [t]⟩

/-- The list payload of a successful list response ([] otherwise). -/
def listOk : ListResp → List Transaction
  | .ok l => l
  | .badRequest _ => []

/-- Whether a list response is successful. -/
def isOk : ListResp → Bool
  | .ok _ => true
  | .badRequest _ => false

/-- The millisecond lower bound the list handler computes for a valid
integral date and tzOffset: UTC midnight of (y, m, d) plus tzOffset
minutes (the month is passed zero-based to the date arithmetic, hence
m - 1). -/
def lowerBoundMs (y m d tz : Int) : Int :=
  makeDay y (m - 1) d * 86400000 + tz * 60000

/-- Fixture row owned by alice; occurredAt 1710100800 is the instant
2024-03-10T20:00:00Z in stored epoch seconds. -/
def txA : Transaction :=
  { id := "a", userId := "alice", title := "Lunch", amount := "12.50",
    currency := "USD", type := "expense", category := none, note := none,
    occurredAt := 1710100800, createdAt := 1709999000, updatedAt := 1709999000 }

/-- Valid update body carrying the amount string "12.50". -/
def bodyAmt1250 : UpdateBody :=
  { title := .str "Lunch", amount := .str "12.50", currency := .str "USD",
    type := .str "expense", category := .undefined, note := .undefined,
    occurredAt := none }

/-- Valid update body except that the type is the string "banana". -/
def bodyBanana : UpdateBody :=
  { title := .str "Lunch", amount := .num 1 0, currency := .str "USD",
    type := .str "banana", category := .undefined, note := .undefined,
    occurredAt := none }

/-- Update body with no amount field. -/
def bodyAmtUndef : UpdateBody :=
  { title := .str "Lunch", amount := .undefined, currency := .str "USD",
    type := .str "expense", category := .undefined, note := .undefined,
    occurredAt := none }

/-- Update body with an explicit null amount. -/
def bodyAmtNull : UpdateBody :=
  { title := .str "Lunch", amount := .null, currency := .str "USD",
    type := .str "expense", category := .undefined, note := .undefined,
    occurredAt := none }

/-- Update body with a non-numeric amount string. -/
def bodyAmtNaN : UpdateBody :=
  { title := .str "Lunch", amount := .str "abc", currency := .str "USD",
    type := .str "expense", category := .undefined, note := .undefined,
    occurredAt := none }

/-- Update body with a padded category and a whitespace-only note. -/
def bodyCatNote : UpdateBody :=
  { title := .str "Lunch", amount := .num 1 0, currency := .str "USD",
    type := .str "expense", category := .str "  Food ", note := .str "   ",
    occurredAt := none }

/-- Bulk fixture rows: 51 transactions of one user inside the day
1970-01-02 UTC (stored seconds 86400 + i). -/
def mkBulkTx (i : Nat) : Transaction :=
  { id := toString i, userId := "u", title := "t", amount := "1",
    currency := "USD", type := "expense", category := none, note := none,
    occurredAt := 86400 + (i : Int), createdAt := 0, updatedAt := 0 }

/-- A store holding the 51 bulk rows. -/
def manyTx : Store := (List.range 51).map mkBulkTx

/-- A schema-conforming extraction result whose amount is the number
12.50 (exact decimal 1250 / 10 ^ 2). -/
def parsedLunch : ParsedTx :=
  { title := "Lunch", amountM := 1250, amountE := 2, currency := "USD",
    type := .expense, category := "Food", note := none, occurredAt := none }

/-- The row the create-from-text fixture inserts. -/
def aiLunchTx : Transaction :=
  { id := "b", userId := "alice", title := "Lunch", amount := "12.5",
    currency := "USD", type := "expense", category := some "Food", note := none,
    occurredAt := 1710000000, createdAt := 1710000000, updatedAt := 1710000000 }

theorem mem_insertDesc {x t : Transaction} {l : List Transaction} :
    x ∈ insertDesc t l ↔ x = t ∨ x ∈ l := by
  induction l with
  | nil => simp [insertDesc]
  | cons u us ih =>
    simp only [insertDesc]
    split
    · simp only [List.mem_cons, ih]
      tauto
    · simp [List.mem_cons]

theorem length_insertDesc (t : Transaction) (l : List Transaction) :
    (insertDesc t l).length = l.length + 1 := by
  induction l with
  | nil => rfl
  | cons u us ih =>
    simp only [insertDesc]
    split
    · simp [List.length_cons, ih]
    · simp [List.length_cons]

theorem mem_sortDesc {x : Transaction} {l : List Transaction} :
    x ∈ sortByOccurredAtDesc l ↔ x ∈ l := by
  induction l with
  | nil => simp [sortByOccurredAtDesc]
  | cons u us ih =>
    show x ∈ insertDesc u (sortByOccurredAtDesc us) ↔ _
    rw [mem_insertDesc, ih]
    simp [List.mem_cons]

theorem length_sortDesc (l : List Transaction) :
    (sortByOccurredAtDesc l).length = l.length := by
  induction l with
  | nil => rfl
  | cons u us ih =>
    show (insertDesc u (sortByOccurredAtDesc us)).length = _
    rw [length_insertDesc, ih, List.length_cons]

theorem mem_runQuery_le {store : Store} {uid : String} {range : Option (Int × Int)}
    {x : Transaction} (h : (store.filter (queryPred uid range)).length ≤ 50) :
    x ∈ runQuery store uid range ↔ x ∈ store ∧ queryPred uid range x = true := by
  unfold runQuery
  rw [List.take_of_length_le (by rw [length_sortDesc]; exact h), mem_sortDesc,
    List.mem_filter]

theorem mem_runQuery_sub {store : Store} {uid : String} {range : Option (Int × Int)}
    {x : Transaction} (h : x ∈ runQuery store uid range) :
    x ∈ store ∧ queryPred uid range x = true := by
  unfold runQuery at h
  have h2 := List.mem_of_mem_take h
  rw [mem_sortDesc, List.mem_filter] at h2
  exact h2

theorem getTransactions_ok_userId {store : Store} {uid : String}
    {dp tp : Option String} {l : List Transaction} {x : Transaction}
    (h : getTransactions store uid dp tp = .ok l) (hx : x ∈ l) :
    x ∈ store ∧ x.userId = uid := by
  have main : ∀ range, x ∈ runQuery store uid range → x ∈ store ∧ x.userId = uid := by
    intro range hmem
    obtain ⟨hs, hp⟩ := mem_runQuery_sub hmem
    refine ⟨hs, ?_⟩
    cases range with
    | none => simpa [queryPred] using hp
    | some p =>
      obtain ⟨lo, hi⟩ := p
      simp only [queryPred, dateRangePred, Bool.and_eq_true, beq_iff_eq] at hp
      exact hp.1
  cases dp with
  | none =>
    simp only [getTransactions] at h
    injection h with h2
    exact main none (h2 ▸ hx)
  | some ds =>
    simp only [getTransactions] at h
    by_cases hds : ds = ""
    · rw [if_pos hds] at h
      injection h with h2
      exact main none (h2 ▸ hx)
    · rw [if_neg hds] at h
      split at h
      · exact absurd h (by simp)
      · injection h with h2
        exact main _ (h2 ▸ hx)

theorem put_ok_spec {store : Store} {uid id : String} {body : UpdateBody}
    {t2 : Transaction} {s2 : Store}
    (h : putTransaction store uid id body = (.ok t2, s2)) :
    ∃ t ∈ store, matchesRow uid id t = true ∧ t2 = applyBody body t := by
  simp only [putTransaction] at h
  split at h
  · simp at h
  split at h
  · simp at h
  split at h
  · simp at h
  case _ t ts heq =>
    have hpair : PutResp.ok t = PutResp.ok t2 := congrArg Prod.fst h
    injection hpair with ht2
    have hmem : t ∈ (store.map fun t =>
        if matchesRow uid id t then applyBody body t else t).filter (matchesRow uid id) := by
      rw [heq]
      exact List.mem_cons_self t ts
    rw [List.mem_filter, List.mem_map] at hmem
    obtain ⟨⟨x, hx, hfx⟩, hmatch⟩ := hmem
    by_cases hmx : matchesRow uid id x = true
    · rw [if_pos hmx] at hfx
      exact ⟨x, hx, hmx, by rw [← ht2, ← hfx]⟩
    · rw [if_neg hmx] at hfx
      rw [← hfx] at hmatch
      exact absurd hmatch hmx

theorem put_notFound {store : Store} {uid id : String} {body : UpdateBody}
    (hid : id ≠ "") (hv : validPayload body = true)
    (hnone : ∀ x ∈ store, matchesRow uid id x = false) :
    putTransaction store uid id body = (.notFound, store) := by
  simp only [putTransaction]
  rw [if_neg hid, if_neg (by simp [hv])]
  have hfil : (store.map fun t =>
      if matchesRow uid id t then applyBody body t else t).filter (matchesRow uid id) = [] := by
    rw [List.filter_eq_nil_iff]
    intro a ha
    rw [List.mem_map] at ha
    obtain ⟨x, hx, hfx⟩ := ha
    rw [if_neg (by simp [hnone x hx])] at hfx
    rw [← hfx]
    simp [hnone x hx]
  rw [hfil]

theorem delete_notFound {store : Store} {uid id : String} (hid : id ≠ "")
    (hnone : ∀ x ∈ store, matchesRow uid id x = false) :
    deleteTransaction store uid id = (.notFound, store) := by
  simp only [deleteTransaction]
  rw [if_neg hid]
  have hfil : store.filter (matchesRow uid id) = [] := by
    rw [List.filter_eq_nil_iff]
    intro a ha
    simp [hnone a ha]
  rw [hfil]

theorem fdiv1000_le_iff {a b : Int} (h : (1000 : Int) ∣ a) :
    Int.fdiv a 1000 ≤ b ↔ a ≤ 1000 * b := by
  obtain ⟨k, rfl⟩ := h
  rw [Int.mul_fdiv_cancel_left k (by norm_num)]
  omega

theorem lt_fdiv1000_iff {a b : Int} (h : (1000 : Int) ∣ a) :
    b < Int.fdiv a 1000 ↔ 1000 * b < a := by
  obtain ⟨k, rfl⟩ := h
  rw [Int.mul_fdiv_cancel_left k (by norm_num)]
  omega

theorem getTransactions_date_eq
    (store : Store) (uid ds tzs sy sm sd : String) (y m d tz : Int)
    (hsplit : jsSplitDash ds = [sy, sm, sd])
    (hy : jsNumberOfString sy = .dec y 0)
    (hm : jsNumberOfString sm = .dec m 0)
    (hd : jsNumberOfString sd = .dec d 0)
    (htz : jsNumberOfString tzs = .dec tz 0)
    (hy100 : 100 ≤ y) (hm1 : 1 ≤ m) (hd1 : 1 ≤ d) :
    getTransactions store uid (some ds) (some tzs) =
      .ok (runQuery store uid (some
        (msToSec (lowerBoundMs y m d tz), msToSec (lowerBoundMs y m d tz + 86400000)))) := by
  have hne : ds ≠ "" := by
    intro hcon
    rw [hcon] at hsplit
    simp [jsSplitDash, splitDashChars] at hsplit
  simp only [getTransactions, jsNumOfParam]
  rw [if_neg hne, hsplit, htz]
  simp only [List.map_cons, List.map_nil, jsAt, List.getElem?_cons_zero,
    List.getElem?_cons_succ, Option.getD_some, hy, hm, hd]
  have hy0 : y ≠ 0 := by omega
  have hm0 : m ≠ 0 := by omega
  have hd0 : d ≠ 0 := by omega
  rw [if_neg (by simp [truthyNum, isNaNNum, hy0, hm0, hd0])]
  have hdut : dateUTC (JSNum.dec y 0) (decSub1 (JSNum.dec m 0)) (JSNum.dec d 0) =
      makeDay y (m - 1) d * 86400000 := by
    have hfy : makeFullYear y = y := by
      simp only [makeFullYear]
      rw [if_neg (by omega)]
    simp [dateUTC, decSub1, jsTruncNum, Int.tdiv_one, hfy]
  simp only [decE, decM, pow_zero, hdut, mul_one, Int.tdiv_one, msToSec, lowerBoundMs]

theorem lowerBoundMs_dvd (y m d tz : Int) : (1000 : Int) ∣ lowerBoundMs y m d tz :=
  ⟨makeDay y (m - 1) d * 86400 + tz * 60, by unfold lowerBoundMs; ring⟩

theorem lowerBoundMs_add_dvd (y m d tz : Int) :
    (1000 : Int) ∣ lowerBoundMs y m d tz + 86400000 :=
  ⟨makeDay y (m - 1) d * 86400 + tz * 60 + 86400, by unfold lowerBoundMs; ring⟩

theorem queryPred_range_iff (uid : String) (y m d tz : Int) (t : Transaction) :
    queryPred uid (some (msToSec (lowerBoundMs y m d tz),
        msToSec (lowerBoundMs y m d tz + 86400000))) t =
      decide (t.userId = uid ∧ lowerBoundMs y m d tz ≤ 1000 * t.occurredAt ∧
        1000 * t.occurredAt < lowerBoundMs y m d tz + 86400000) := by
  rw [Bool.eq_iff_iff]
  simp only [queryPred, dateRangePred, Bool.and_eq_true, beq_iff_eq,
    decide_eq_true_eq, msToSec]
  rw [fdiv1000_le_iff (lowerBoundMs_dvd y m d tz),
    lt_fdiv1000_iff (lowerBoundMs_add_dvd y m d tz)]

theorem list_range_spec
    (store : Store) (uid ds tzs sy sm sd : String) (y m d tz : Int)
    (hsplit : jsSplitDash ds = [sy, sm, sd])
    (hy : jsNumberOfString sy = .dec y 0)
    (hm : jsNumberOfString sm = .dec m 0)
    (hd : jsNumberOfString sd = .dec d 0)
    (htz : jsNumberOfString tzs = .dec tz 0)
    (hy100 : 100 ≤ y) (hm1 : 1 ≤ m) (hd1 : 1 ≤ d)
    (hcap : (store.filter fun t => decide (t.userId = uid ∧
        lowerBoundMs y m d tz ≤ 1000 * t.occurredAt ∧
        1000 * t.occurredAt < lowerBoundMs y m d tz + 86400000)).length ≤ 50) :
    ∃ l, getTransactions store uid (some ds) (some tzs) = .ok l ∧
      ∀ x, x ∈ l ↔ (x ∈ store ∧ x.userId = uid ∧
        lowerBoundMs y m d tz ≤ 1000 * x.occurredAt ∧
        1000 * x.occurredAt < lowerBoundMs y m d tz + 86400000) := by
  have hfil : store.filter (queryPred uid (some (msToSec (lowerBoundMs y m d tz),
      msToSec (lowerBoundMs y m d tz + 86400000)))) =
      store.filter fun t => decide (t.userId = uid ∧
        lowerBoundMs y m d tz ≤ 1000 * t.occurredAt ∧
        1000 * t.occurredAt < lowerBoundMs y m d tz + 86400000) :=
    List.filter_congr fun t _ => queryPred_range_iff uid y m d tz t
  refine ⟨_, getTransactions_date_eq store uid ds tzs sy sm sd y m d tz
    hsplit hy hm hd htz hy100 hm1 hd1, ?_⟩
  intro x
  rw [mem_runQuery_le (by rw [hfil]; exact hcap), queryPred_range_iff,
    decide_eq_true_eq]

/-- Claim C1: ownership isolation. For every stored transaction t and
every caller u with u different from the owner t.userId, delete on t.id
returns NotFound and leaves the store unchanged, update on t.id (with a
payload that passes validation; an invalid payload is rejected as
BadRequest before the row lookup) returns NotFound and leaves the store
unchanged, and t never appears in any successful List response for u.
The id-uniqueness hypothesis is the primary-key constraint of the
table; both WHERE clauses match a row only on the conjunction of id and
the caller userId, which is what makes all three conclusions hold. -/
theorem spec_ownership (store : Store) (t : Transaction) (u : String)
    (ht : t ∈ store) (hpk : ∀ t2 ∈ store, t2.id = t.id → t2 = t)
    (hu : u ≠ t.userId) (hid : t.id ≠ "") :
    deleteTransaction store u t.id = (.notFound, store) ∧
    (∀ body : UpdateBody, validPayload body = true →
      putTransaction store u t.id body = (.notFound, store)) ∧
    (∀ dp tp l, getTransactions store u dp tp = .ok l → t ∉ l) := by
  have hnone : ∀ x ∈ store, matchesRow u t.id x = false := by
    intro x hx
    by_cases hxid : x.id = t.id
    · have hxt := hpk x hx hxid
      subst hxt
      simp only [matchesRow, Bool.and_eq_false_iff, beq_eq_false_iff_ne, ne_eq]
      exact Or.inr (Ne.symm hu)
    · have hfalse : (x.id == t.id) = false := by
        simp [hxid]
      simp [matchesRow, hfalse]
  refine ⟨delete_notFound hid hnone, fun body hv => put_notFound hid hv hnone, ?_⟩
  intro dp tp l hok hmem
  obtain ⟨_, huid⟩ := getTransactions_ok_userId hok hmem
  exact hu huid.symm

/-- Witness for C1 at a concrete store: bob is not the owner of txA and
delete returns NotFound leaving the store unchanged. -/
theorem spec_ownership_w :
    txA ∈ [txA] ∧ "bob" ≠ txA.userId ∧
    deleteTransaction [txA] "bob" txA.id = (.notFound, [txA]) :=
  ⟨by decide, by decide,
    (spec_ownership [txA] txA "bob" (by decide) (by decide) (by decide) (by decide)).1⟩

/-- Claim C2 counterexample: with date=2024-03-10 and tzOffset=-300 the
claim asserts the response is exactly the callers transactions in
[2024-03-10T05:00:00Z, 2024-03-11T05:00:00Z).  The fixture txA occurs
at 2024-03-10T20:00:00Z (stored seconds 1710100800), inside the claimed
interval, yet the handler returns the empty list: the code adds
tzOffset to UTC midnight, so -300 minutes yields the window
[2024-03-09T19:00:00Z, 2024-03-10T19:00:00Z), which excludes txA. -/
theorem spec_list_utc5_cex :
    txA.userId = "alice" ∧ 1710046800 ≤ txA.occurredAt ∧ txA.occurredAt < 1710133200 ∧
    getTransactions [txA] "alice" (some "2024-03-10") (some "-300") = .ok [] := by
  decide

/-- Claim C2 (amended): a List request with date=2024-03-10 and
tzOffset=300 (the getTimezoneOffset value of UTC-5, forced by the sign
convention of the code) returns exactly the callers transactions with
occurredAt in [2024-03-10T05:00:00Z, 2024-03-11T05:00:00Z) — stored
seconds 1710046800 to 1710133200 — provided the caller has at most 50
such transactions (the query is capped at 50 rows). -/
theorem spec_list_utc5 (store : Store) (uid : String)
    (hcap : (store.filter fun t => decide (t.userId = uid ∧
        1710046800 ≤ t.occurredAt ∧ t.occurredAt < 1710133200)).length ≤ 50) :
    ∃ l, getTransactions store uid (some "2024-03-10") (some "300") = .ok l ∧
      ∀ x, x ∈ l ↔ (x ∈ store ∧ x.userId = uid ∧
        1710046800 ≤ x.occurredAt ∧ x.occurredAt < 1710133200) := by
  have hb : lowerBoundMs 2024 3 10 300 = 1710046800000 := by decide
  have hiff : ∀ occ : Int,
      (lowerBoundMs 2024 3 10 300 ≤ 1000 * occ ∧
        1000 * occ < lowerBoundMs 2024 3 10 300 + 86400000) ↔
      (1710046800 ≤ occ ∧ occ < 1710133200) := by
    intro occ
    rw [hb]
    omega
  have hconv : (store.filter fun t => decide (t.userId = uid ∧
      lowerBoundMs 2024 3 10 300 ≤ 1000 * t.occurredAt ∧
      1000 * t.occurredAt < lowerBoundMs 2024 3 10 300 + 86400000)) =
      store.filter fun t => decide (t.userId = uid ∧
        1710046800 ≤ t.occurredAt ∧ t.occurredAt < 1710133200) := by
    apply List.filter_congr
    intro t _
    rw [decide_eq_decide]
    exact and_congr_right fun _ => hiff t.occurredAt
  obtain ⟨l, hok, hmem⟩ := list_range_spec store uid "2024-03-10" "300" "2024" "03" "10"
    2024 3 10 300 (by decide) (by decide) (by decide) (by decide) (by decide)
    (by decide) (by decide) (by decide) (by rw [hconv]; exact hcap)
  refine ⟨l, hok, fun x => ?_⟩
  rw [hmem x]
  constructor
  · rintro ⟨h1, h2, h3⟩
    exact ⟨h1, h2, (hiff x.occurredAt).mp h3⟩
  · rintro ⟨h1, h2, h3⟩
    exact ⟨h1, h2, (hiff x.occurredAt).mpr h3⟩

/-- Witness for C2 at a concrete store: txA occurs at
2024-03-10T20:00:00Z and is returned. -/
theorem spec_list_utc5_w :
    ∃ l, getTransactions [txA] "alice" (some "2024-03-10") (some "300") = .ok l ∧
      ∀ x, x ∈ l ↔ (x ∈ [txA] ∧ x.userId = "alice" ∧
        1710046800 ≤ x.occurredAt ∧ x.occurredAt < 1710133200) :=
  spec_list_utc5 [txA] "alice" (by decide)

/-- Claim C3 counterexample to the returned-iff-in-range clause: the 51
bulk rows all belong to user u and all lie inside the computed window
for date=1970-01-02, tzOffset=0, but the query is capped at 50 rows, so
the row with the smallest occurredAt (mkBulkTx 0) satisfies the range
condition yet is not returned. -/
theorem spec_list_cap_cex :
    mkBulkTx 0 ∈ manyTx ∧ (mkBulkTx 0).userId = "u" ∧
    lowerBoundMs 1970 1 2 0 ≤ 1000 * (mkBulkTx 0).occurredAt ∧
    1000 * (mkBulkTx 0).occurredAt < lowerBoundMs 1970 1 2 0 + 86400000 ∧
    isOk (getTransactions manyTx "u" (some "1970-01-02") (some "0")) = true ∧
    mkBulkTx 0 ∉ listOk (getTransactions manyTx "u" (some "1970-01-02") (some "0")) := by
  decide

/-- Claim C3 (amended): for a List request whose date parameter splits
into numerals y-m-d of a valid calendar date (integer year at least 100,
so outside the 1900-offset range of MakeFullYear, month 1..12, day at
least 1) and whose tzOffset parses to an integer number of minutes, the
inclusive lower bound is UTC midnight of (y, m, d) plus tzOffset
minutes (lowerBoundMs, in ms), the exclusive upper bound is that plus
exactly 24 hours, and a transaction of the caller is returned iff its
occurredAt instant is at least the lower bound and below the upper
bound — provided the caller has at most 50 transactions in the window,
since the query is capped at 50 rows. -/
theorem spec_list_range
    (store : Store) (uid ds tzs sy sm sd : String) (y m d tz : Int)
    (hsplit : jsSplitDash ds = [sy, sm, sd])
    (hy : jsNumberOfString sy = .dec y 0)
    (hm : jsNumberOfString sm = .dec m 0)
    (hd : jsNumberOfString sd = .dec d 0)
    (htz : jsNumberOfString tzs = .dec tz 0)
    (hy100 : 100 ≤ y) (hm1 : 1 ≤ m) (_hm12 : m ≤ 12) (hd1 : 1 ≤ d) (_hd31 : d ≤ 31)
    (hcap : (store.filter fun t => decide (t.userId = uid ∧
        lowerBoundMs y m d tz ≤ 1000 * t.occurredAt ∧
        1000 * t.occurredAt < lowerBoundMs y m d tz + 86400000)).length ≤ 50) :
    ∃ l, getTransactions store uid (some ds) (some tzs) = .ok l ∧
      ∀ x, x ∈ l ↔ (x ∈ store ∧ x.userId = uid ∧
        lowerBoundMs y m d tz ≤ 1000 * x.occurredAt ∧
        1000 * x.occurredAt < lowerBoundMs y m d tz + 86400000) :=
  list_range_spec store uid ds tzs sy sm sd y m d tz hsplit hy hm hd htz
    hy100 hm1 hd1 hcap

/-- Witness for C3 at a concrete request: date 2024-03-10, tzOffset
300, store holding txA. -/
theorem spec_list_range_w :
    ∃ l, getTransactions [txA] "alice" (some "2024-03-10") (some "300") = .ok l ∧
      ∀ x, x ∈ l ↔ (x ∈ [txA] ∧ x.userId = "alice" ∧
        lowerBoundMs 2024 3 10 300 ≤ 1000 * x.occurredAt ∧
        1000 * x.occurredAt < lowerBoundMs 2024 3 10 300 + 86400000) :=
  spec_list_range [txA] "alice" "2024-03-10" "300" "2024" "03" "10" 2024 3 10 300
    (by decide) (by decide) (by decide) (by decide) (by decide) (by decide)
    (by decide) (by decide) (by decide) (by decide) (by decide)

/-- Claim C4 counterexample: updating with the amount string "12.50"
stores "12.5", not "12.50": the handler coerces the amount through a JS
number (Number(payload.amount).toString()), so the text is not taken
over unchanged. -/
theorem spec_amount_roundtrip_cex :
    (putTransaction [txA] "alice" "a" bodyAmt1250).1 = .ok (applyBody bodyAmt1250 txA) ∧
    (applyBody bodyAmt1250 txA).amount = "12.5" ∧
    ("12.5" : String) ≠ "12.50" := by
  decide

/-- Claim C4 (amended): writing a transaction with amount 12.50 and
currency USD and reading it back yields currency "USD" unchanged but
amount "12.5": on the update path the amount is stored as
Number(amount).toString(), and on the create path the extracted amount
is a JS number whose toString likewise drops the trailing zero, so the
numeric value round-trips while the text form is canonicalised. -/
theorem spec_amount_roundtrip :
    ((putTransaction [txA] "alice" "a" bodyAmt1250).1 = .ok (applyBody bodyAmt1250 txA) ∧
      (applyBody bodyAmt1250 txA).amount = "12.5" ∧
      (applyBody bodyAmt1250 txA).currency = "USD") ∧
    ((postAi [] "alice" (.str "Lunch for 12.50 dollars") (.str "USD")
        (some parsedLunch) "b" 1710000000123).store.map
          (fun t => (t.amount, t.currency)) = [("12.5", "USD")]) := by
  decide

/-- Claim C5, evaluated at the failing input: the update handler only
checks that the type field is truthy, so a PUT by the owner with type
"banana" succeeds and persists a type outside {income, expense}, even
though the schema comment and the spec state that the application layer
enforces the enumeration on every persisted row. -/
theorem spec_type_unchecked_update :
    (putTransaction [txA] "alice" "a" bodyBanana).1 = .ok (applyBody bodyBanana txA) ∧
    (applyBody bodyBanana txA).type = "banana" ∧
    (applyBody bodyBanana txA).type ≠ "income" ∧
    (applyBody bodyBanana txA).type ≠ "expense" := by
  decide

/-- Claim C6 counterexample: a successful update leaves the stored
updatedAt exactly as it was — the update SET clause names no timestamp
column and the schema default functions run only at insert — so the
claim that every mutation sets updatedAt again fails. -/
theorem spec_update_timestamps_cex :
    (putTransaction [txA] "alice" "a" bodyAmt1250).1 = .ok (applyBody bodyAmt1250 txA) ∧
    (applyBody bodyAmt1250 txA).updatedAt = txA.updatedAt := by
  decide

/-- Claim C6 (amended): createdAt and updatedAt are both set to the
insert time when a transaction is created, and a successful update
leaves updatedAt (and createdAt) of the row unchanged. -/
theorem spec_update_timestamps :
    (∀ (store : Store) (uid : String) (bt bc : JSVal) (p q : ParsedTx) (nid : String)
        (nowMs : Int) (t : Transaction),
        (postAi store uid bt bc (some p) nid nowMs).resp = .created q t →
        t.createdAt = msToSec nowMs ∧ t.updatedAt = msToSec nowMs) ∧
    (∀ (store : Store) (uid id : String) (body : UpdateBody) (t2 : Transaction)
        (s2 : Store), putTransaction store uid id body = (.ok t2, s2) →
        ∃ t ∈ store, t2 = applyBody body t ∧ t2.updatedAt = t.updatedAt ∧
          t2.createdAt = t.createdAt) := by
  constructor
  · intro store uid bt bc p q nid nowMs t h
    simp only [postAi] at h
    split at h
    · simp at h
    · injection h with hq hT
      subst hT
      exact ⟨rfl, rfl⟩
  · intro store uid id body t2 s2 h
    obtain ⟨t, htm, hmr, rfl⟩ := put_ok_spec h
    exact ⟨t, htm, rfl, rfl, rfl⟩

/-- Witness for C6: a concrete create sets both timestamps to the
insert second, and a concrete update returns the row with both
timestamps untouched. -/
theorem spec_update_timestamps_w :
    ((postAi [] "alice" (JSVal.str "Lunch") (JSVal.str "usd") (some parsedLunch) "b"
        1710000000123).resp = .created parsedLunch aiLunchTx ∧
      aiLunchTx.createdAt = msToSec 1710000000123 ∧
      aiLunchTx.updatedAt = msToSec 1710000000123) :=
  ⟨by decide,
    spec_update_timestamps.1 [] "alice" (JSVal.str "Lunch") (JSVal.str "usd")
      parsedLunch parsedLunch "b" 1710000000123 aiLunchTx (by decide)⟩

/-- Claim C7: extraction-failure atomicity. When the text is non-empty
after trimming and the extraction service fails to produce a
schema-conforming object (the generateObject call throws, modelled as
none), the request surfaces the upstream failure and the store is
returned unchanged — the insert is never reached, so nothing is
persisted. -/
theorem spec_extraction_atomic (store : Store) (uid : String) (bt bc : JSVal)
    (nid : String) (nowMs : Int)
    (htext : jsTrim (jsToString (coalesce bt (.str ""))) ≠ "") :
    postAi store uid bt bc none nid nowMs = ⟨.upstreamFailure, true, store⟩ := by
  simp only [postAi]
  rw [if_neg htext]

/-- Witness for C7 at a concrete request. -/
theorem spec_extraction_atomic_w :
    jsTrim (jsToString (coalesce (JSVal.str "Lunch 12") (.str ""))) ≠ "" ∧
    postAi [txA] "alice" (JSVal.str "Lunch 12") JSVal.undefined none "b" 0 =
      ⟨.upstreamFailure, true, [txA]⟩ :=
  ⟨by decide,
    spec_extraction_atomic [txA] "alice" (JSVal.str "Lunch 12") JSVal.undefined "b" 0
      (by decide)⟩

/-- Claim C8: a create-from-text request whose text is empty after
trimming (including an absent or null text field, which the ?? default
turns into the empty string) is answered with the BadRequest error
Missing text, the extraction service is never invoked (the outcome flag
calledExtraction is false and the result does not depend on the
extraction argument), and the store is unchanged. -/
theorem spec_missing_text (store : Store) (uid : String) (bt bc : JSVal)
    (extract : Option ParsedTx) (nid : String) (nowMs : Int)
    (htext : jsTrim (jsToString (coalesce bt (.str ""))) = "") :
    postAi store uid bt bc extract nid nowMs = ⟨.badRequest "Missing text", false, store⟩ := by
  simp only [postAi]
  rw [if_pos htext]

/-- Witness for C8 at a concrete request with absent text and an
extraction result that would succeed, showing it is not consulted. -/
theorem spec_missing_text_w :
    jsTrim (jsToString (coalesce JSVal.undefined (.str ""))) = "" ∧
    postAi [txA] "alice" JSVal.undefined JSVal.undefined (some parsedLunch) "b" 0 =
      ⟨.badRequest "Missing text", false, [txA]⟩ :=
  ⟨by decide,
    spec_missing_text [txA] "alice" JSVal.undefined JSVal.undefined (some parsedLunch)
      "b" 0 (by decide)⟩

/-- Claim C9: every successful update stores exactly the normalised
request values for category and note — the SET clause always names both
columns, so the previous stored values never survive — and the
normalisation maps an absent field, a null field, and an empty or
whitespace-only string all to null. -/
theorem spec_category_note_overwrite :
    (∀ (store : Store) (uid id : String) (body : UpdateBody) (t2 : Transaction)
        (s2 : Store), putTransaction store uid id body = (.ok t2, s2) →
        t2.category = normOpt body.category ∧ t2.note = normOpt body.note) ∧
    normOpt .undefined = none ∧ normOpt .null = none ∧
    (∀ s : String, jsTrim s = "" → normOpt (.str s) = none) := by
  refine ⟨?_, rfl, rfl, ?_⟩
  · intro store uid id body t2 s2 h
    obtain ⟨t, _, _, rfl⟩ := put_ok_spec h
    exact ⟨rfl, rfl⟩
  · intro s hs
    simp [normOpt, optTrimStr, hs]

/-- Witness for C9 at a concrete update: a padded category is trimmed
and a whitespace-only note becomes null. -/
theorem spec_category_note_overwrite_w :
    ((applyBody bodyCatNote txA).category = normOpt bodyCatNote.category ∧
      (applyBody bodyCatNote txA).note = normOpt bodyCatNote.note) ∧
    normOpt bodyCatNote.category = some "Food" ∧
    normOpt bodyCatNote.note = none :=
  ⟨spec_category_note_overwrite.1 [txA] "alice" "a" bodyCatNote
      (applyBody bodyCatNote txA)
      [applyBody bodyCatNote txA] (by decide),
    by decide, by decide⟩

/-- Claim C10: the update payload guard rejects the amount only when
the field is absent (undefined): a request with an explicit null amount
or a non-numeric amount passes validation, and a successful update then
stores the decimal rendering of the numeric coercion — "0" for null,
"NaN" for a string that coerces to NaN. -/
theorem spec_amount_validation :
    (∀ (store : Store) (uid id : String) (body : UpdateBody), id ≠ "" →
        body.amount = .undefined →
        (putTransaction store uid id body).1 = .badRequest "Invalid payload") ∧
    (∀ (store : Store) (uid id : String) (body : UpdateBody) (t2 : Transaction)
        (s2 : Store), putTransaction store uid id body = (.ok t2, s2) →
        body.amount = .null → t2.amount = "0") ∧
    (∀ (store : Store) (uid id : String) (body : UpdateBody) (t2 : Transaction)
        (s2 : Store), putTransaction store uid id body = (.ok t2, s2) →
        jsNumber body.amount = .nan → t2.amount = "NaN") := by
  refine ⟨?_, ?_, ?_⟩
  · intro store uid id body hid hamt
    simp only [putTransaction]
    rw [if_neg hid]
    have hv : validPayload body = false := by
      simp [validPayload, hamt, isUndefined]
    rw [hv]
    simp
  · intro store uid id body t2 s2 h hnull
    obtain ⟨t, _, _, rfl⟩ := put_ok_spec h
    show numToString (jsNumber body.amount) = "0"
    rw [hnull]
    decide
  · intro store uid id body t2 s2 h hnan
    obtain ⟨t, _, _, rfl⟩ := put_ok_spec h
    show numToString (jsNumber body.amount) = "NaN"
    rw [hnan]
    decide

/-- Witness for C10 at concrete updates: an absent amount is rejected,
a null amount stores "0", the amount string "abc" stores "NaN". -/
theorem spec_amount_validation_w :
    (putTransaction [txA] "alice" "a" bodyAmtUndef).1 = .badRequest "Invalid payload" ∧
    (applyBody bodyAmtNull txA).amount = "0" ∧
    (applyBody bodyAmtNaN txA).amount = "NaN" :=
  ⟨spec_amount_validation.1 [txA] "alice" "a" bodyAmtUndef (by decide) rfl,
    spec_amount_validation.2.1 [txA] "alice" "a" bodyAmtNull (applyBody bodyAmtNull txA)
      [applyBody bodyAmtNull txA] (by decide) rfl,
    spec_amount_validation.2.2 [txA] "alice" "a" bodyAmtNaN (applyBody bodyAmtNaN txA)
      [applyBody bodyAmtNaN txA] (by decide) (by decide)⟩
